import Mathlib

/-!
# Verification of the `vector3-float` Rust library

Shallow embedding of `src/lib.rs` (the `Vector3` value type over `f64`) and of
the revision its external test suite `src/tests.rs` targets.

Two models are used, each faithful to the aspect of `f64` the claims exercise:

* **Bit-level model** (`Vector3B`): an `f64` is its 64-bit IEEE-754 binary64
  bit pattern, represented as a `Nat` (< 2^64 where it matters).
  `f64::to_be_bytes` / `f64::from_be_bytes` are pure byte shuffles of that
  pattern, and IEEE `==` is a decidable function of the two patterns
  (NaN patterns compare unequal to everything; the two zero patterns compare
  equal; all other patterns compare equal iff identical).  This model settles
  the serialization and equality claims.

* **Special-value model** (`FNum`, `Vector3F`): an `f64` is either a finite
  rational, a signed infinity, or NaN, with the IEEE-754 special-value
  propagation rules translated exactly and finite arithmetic kept exact
  (rounding and overflow are not modelled; the sign of zero is merged into
  the single finite value 0).  IEEE `sqrt` returns the exact mathematical
  root whenever that root is representable; `ratSqrt` below computes the
  exact root on perfect squares, which is the only regime the theorems
  evaluate it in.  This model settles the arithmetic/geometric claims.
-/

namespace V3

/-! ## Bit-level model -/

/-- A `Vector3` as three `f64` bit patterns (each a `Nat`, < 2^64 where it
matters), fields in the source order `x`, `y`, `z`. -/
structure Vector3B where
  x : Nat
  y : Nat
  z : Nat
deriving DecidableEq, Repr

/-- `f64::to_be_bytes`: the eight bytes of the bit pattern, most significant
first (big-endian). -/
def f64ToBeBytes (b : Nat) : List Nat :=
  [b / 2 ^ 56 % 256, b / 2 ^ 48 % 256, b / 2 ^ 40 % 256, b / 2 ^ 32 % 256,
   b / 2 ^ 24 % 256, b / 2 ^ 16 % 256, b / 2 ^ 8 % 256, b % 256]

/-- `f64::from_be_bytes`: reassemble a bit pattern from big-endian bytes. -/
def bytesToU64BE (bs : List Nat) : Nat :=
  bs.foldl (fun acc b => acc * 256 + b) 0

/-- `slice.clone_from_slice` on the range starting at `start`: overwrite
`src.length` elements of `arr` from `start` with `src`. -/
def setSlice (arr : List Nat) (start : Nat) (src : List Nat) : List Nat :=
  arr.take start ++ src ++ arr.drop (start + src.length)

/-- `Vector3::to_be_bytes` (src/lib.rs:58-66): start from a 24-byte zero
array, then clone the big-endian bytes of `x` into `[..=7]`, of `y` into
`[8..=15]`, and of `z` into `[16..]`. -/
def Vector3B.to_be_bytes (v : Vector3B) : List Nat :=
  let result := List.replicate 24 0
  let result := setSlice result 0 (f64ToBeBytes v.x)
  let result := setSlice result 8 (f64ToBeBytes v.y)
  let result := setSlice result 16 (f64ToBeBytes v.z)
  result

/-- `slice::try_into` an `[u8; 8]`: succeeds exactly when the slice has
length 8 (the failure branch is what `.unwrap()` would turn into a panic). -/
def tryInto8 (bs : List Nat) : Option (List Nat) :=
  if bs.length = 8 then some bs else none

/-- `Vector3::from_be_bytes` (src/lib.rs:49-55): read `x` from `bytes[..8]`,
`y` from `bytes[8..16]`, `z` from `bytes[16..]`; each slice-to-array
conversion is modelled as the fallible `tryInto8`, so the function returns
`none` exactly when one of the `.unwrap()` calls would panic. -/
def Vector3B.from_be_bytes (bytes : List Nat) : Option Vector3B :=
  match tryInto8 (bytes.take 8), tryInto8 ((bytes.drop 8).take 8),
        tryInto8 (bytes.drop 16) with
  | some bx, some byy, some bz =>
      some ⟨bytesToU64BE bx, bytesToU64BE byy, bytesToU64BE bz⟩
  | _, _, _ => none

/-- The bit pattern of an `f64` is a NaN: exponent field all ones and
nonzero fraction field. -/
def isNanBits (b : Nat) : Bool :=
  decide (b / 2 ^ 52 % 2 ^ 11 = 2047) && decide (b % 2 ^ 52 ≠ 0)

/-- The bit pattern of an `f64` is a (positive or negative) zero: all bits
other than the sign bit are clear. -/
def isZeroBits (b : Nat) : Bool :=
  decide (b % 2 ^ 63 = 0)

/-- IEEE-754 `==` on two binary64 bit patterns: false when either is NaN,
true when both are zeros (of either sign), otherwise bitwise identity
(distinct non-zero finite or infinite values have distinct patterns). -/
def f64EqBits (a b : Nat) : Bool :=
  if isNanBits a || isNanBits b then false
  else if isZeroBits a && isZeroBits b then true
  else a == b

/-- `impl PartialEq<Vector3> for Vector3` (src/lib.rs:160-169): compare the
components with `f64` `!=` and return `false` at the first mismatch. -/
def Vector3B.eqImpl (a b : Vector3B) : Bool :=
  if !f64EqBits a.x b.x then false
  else if !f64EqBits a.y b.y then false
  else if !f64EqBits a.z b.z then false
  else true

/-- Decode a binary64 bit pattern to the exact rational it represents;
`none` for NaN and the infinities. -/
def bitsVal (b : Nat) : Option ℚ :=
  let sign : Nat := b / 2 ^ 63
  let e : Nat := b / 2 ^ 52 % 2 ^ 11
  let frac : Nat := b % 2 ^ 52
  if e = 2047 then none
  else
    let mag : ℚ :=
      if e = 0 then (frac : ℚ) * (2 : ℚ) ^ (-1074 : ℤ)
      else ((2 ^ 52 + frac : ℕ) : ℚ) * (2 : ℚ) ^ ((e : ℤ) - 1075)
    some (if sign = 1 then -mag else mag)

/-- The single error kind of the library.

Modelled from the spec: deserialization "must fail with a `LengthMismatch`-kind
error (not a crash) when given fewer/more than 24 bytes"; the slice-taking,
`Result`-returning `from_be_bytes` this describes is the revision that
`src/tests.rs` calls (`vector_b.unwrap()`), and is not present in
`src/lib.rs`, which only has the infallible `[u8; 24]` version. -/
inductive DeserializeError where
  | lengthMismatch
deriving DecidableEq, Repr

/-- Modelled from the spec: the checked `from_bytes` over an arbitrary
buffer — return the `LengthMismatch` error unless the buffer is exactly
24 bytes, otherwise decode as `Vector3B.from_be_bytes` does. -/
def from_be_bytes_checked (bytes : List Nat) : Except DeserializeError Vector3B :=
  if bytes.length = 24 then
    Except.ok ⟨bytesToU64BE (bytes.take 8),
               bytesToU64BE ((bytes.drop 8).take 8),
               bytesToU64BE (bytes.drop 16)⟩
  else
    Except.error DeserializeError.lengthMismatch

/-! ## Special-value model of `f64` arithmetic -/

/-- An `f64` value as the IEEE-754 special-value algebra: a finite value
(an exact rational; the sign of zero is merged), a signed infinity
(`true` = negative), or NaN.  Finite arithmetic is exact: rounding and
overflow are not modelled. -/
inductive FNum where
  | finite : ℚ → FNum
  | inf : Bool → FNum
  | nan : FNum
deriving DecidableEq, Repr

namespace FNum

/-- IEEE-754 negation. -/
def fneg : FNum → FNum
  | finite q => finite (-q)
  | inf s => inf (!s)
  | nan => nan

/-- IEEE-754 addition (finite part exact): NaN propagates, opposite
infinities give NaN, an infinity absorbs any finite value. -/
def fadd : FNum → FNum → FNum
  | nan, _ => nan
  | _, nan => nan
  | inf s, inf t => if s = t then inf s else nan
  | inf s, finite _ => inf s
  | finite _, inf t => inf t
  | finite q, finite r => finite (q + r)

/-- IEEE-754 subtraction: `a - b = a + (-b)` (exact in IEEE-754). -/
def fsub (a b : FNum) : FNum := fadd a (fneg b)

/-- IEEE-754 multiplication (finite part exact): NaN propagates,
`0 * inf = NaN`, infinities multiply signs. -/
def fmul : FNum → FNum → FNum
  | nan, _ => nan
  | _, nan => nan
  | inf s, inf t => inf (xor s t)
  | inf s, finite q => if q = 0 then nan else inf (xor s (decide (q < 0)))
  | finite q, inf t => if q = 0 then nan else inf (xor (decide (q < 0)) t)
  | finite q, finite r => finite (q * r)

/-- IEEE-754 division (finite part exact): NaN propagates, `inf/inf = NaN`,
`x/0` is a signed infinity for nonzero finite `x` and NaN for `0/0`,
`finite/inf = 0`. -/
def fdiv : FNum → FNum → FNum
  | nan, _ => nan
  | _, nan => nan
  | inf _, inf _ => nan
  | inf s, finite q => inf (xor s (decide (q < 0)))
  | finite _, inf _ => finite 0
  | finite q, finite r =>
      if r = 0 then (if q = 0 then nan else inf (decide (q < 0)))
      else finite (q / r)

/-- Square root of a rational, used only where IEEE `sqrt` is exact: on a
perfect square it returns the exact root (as IEEE `sqrt` does); elsewhere
it is some nonnegative approximation standing in for the rounded root. -/
def ratSqrt (q : ℚ) : ℚ :=
  (Nat.sqrt q.num.toNat : ℚ) / (Nat.sqrt q.den : ℚ)

/-- `libm::sqrt`: NaN on NaN or negative arguments (including `-inf`),
`+inf` on `+inf`, and the (exact-on-perfect-squares) root on nonnegative
finite arguments. -/
def fsqrt : FNum → FNum
  | nan => nan
  | inf s => if s then nan else inf false
  | finite q => if q < 0 then nan else finite (ratSqrt q)

/-- IEEE-754 `==`: false whenever either side is NaN, sign comparison for
infinities, exact value comparison for finite values. -/
def feq : FNum → FNum → Bool
  | nan, _ => false
  | _, nan => false
  | inf s, inf t => s == t
  | inf _, finite _ => false
  | finite _, inf _ => false
  | finite q, finite r => decide (q = r)

/-- IEEE-754 `>=`: false whenever either side is NaN (unordered). -/
def fge : FNum → FNum → Bool
  | nan, _ => false
  | _, nan => false
  | inf s, inf t => !s || t
  | inf s, finite _ => !s
  | finite _, inf t => t
  | finite q, finite r => decide (r ≤ q)

/-- The value is NaN. -/
def isNan : FNum → Bool
  | nan => true
  | _ => false

/-- The value is finite. -/
def isFinite : FNum → Bool
  | finite _ => true
  | _ => false

end FNum

/-! ## The `Vector3` operations over the special-value model -/

/-- A `Vector3` as three `f64` values of the special-value model. -/
structure Vector3F where
  x : FNum
  y : FNum
  z : FNum
deriving DecidableEq, Repr

namespace Vector3F

open FNum

/-- `Vector3::new` (src/lib.rs:35-41). -/
def new (x y z : FNum) : Vector3F := ⟨x, y, z⟩

/-- `Vector3::new_zero` (src/lib.rs:44-46). -/
def new_zero : Vector3F := ⟨finite 0, finite 0, finite 0⟩

/-- `impl Mul<Vector3> for Vector3` (src/lib.rs:136-142), the dot product:
`(x1*x2) + (y1*y2) + (z1*z2)`, left associated. -/
def dot (a b : Vector3F) : FNum :=
  fadd (fadd (fmul a.x b.x) (fmul a.y b.y)) (fmul a.z b.z)

/-- `impl Mul<Vector3> for f64` (src/lib.rs:112-118): the scalar on the
left, components `rhs.x * self` etc. -/
def smulL (s : FNum) (v : Vector3F) : Vector3F :=
  ⟨fmul v.x s, fmul v.y s, fmul v.z s⟩

/-- `impl Mul<f64> for Vector3` (src/lib.rs:120-126): the scalar on the
right, components `rhs * self.x` etc. -/
def smulR (v : Vector3F) (s : FNum) : Vector3F :=
  ⟨fmul s v.x, fmul s v.y, fmul s v.z⟩

/-- `impl Div<f64> for Vector3` (src/lib.rs:128-134): `self * (1.0 / b)`. -/
def vdiv (v : Vector3F) (b : FNum) : Vector3F :=
  smulR v (fdiv (finite 1) b)

/-- `impl Add<Vector3> for Vector3` (src/lib.rs:144-150). -/
def vadd (a b : Vector3F) : Vector3F :=
  ⟨fadd a.x b.x, fadd a.y b.y, fadd a.z b.z⟩

/-- `impl Sub<Vector3> for Vector3` (src/lib.rs:152-158). -/
def vsub (a b : Vector3F) : Vector3F :=
  ⟨fsub a.x b.x, fsub a.y b.y, fsub a.z b.z⟩

/-- `Vector3::magnitude` (src/lib.rs:69-71): `libm::sqrt(*self**self)`. -/
def magnitude (v : Vector3F) : FNum := fsqrt (dot v v)

/-- `Vector3::sqr_magnitude` (src/lib.rs:73-75). -/
def sqr_magnitude (v : Vector3F) : FNum := dot v v

/-- `Vector3::normalize` (src/lib.rs:77-79), translated exactly as written:
`(1.0 / libm::sqrt(self.x * self.x + self.y * self.y + self.z + self.z)) * *self`
— note the sum adds `z` twice instead of squaring it, and the additions
associate to the left. -/
def normalize (v : Vector3F) : Vector3F :=
  smulL (fdiv (finite 1)
          (fsqrt (fadd (fadd (fadd (fmul v.x v.x) (fmul v.y v.y)) v.z) v.z))) v

/-- `Vector3::project_on` (src/lib.rs:93-95): `*b*((*self * *b) / (*b * *b))`,
i.e. `b * (dot(self,b) / dot(b,b))` with the scalar on the right. -/
def project_on (a b : Vector3F) : Vector3F :=
  smulR b (fdiv (dot a b) (dot b b))

/-- `Vector3::reject_from` (src/lib.rs:98-100): `*self - self.project_on(b)`. -/
def reject_from (a b : Vector3F) : Vector3F :=
  vsub a (project_on a b)

/-- `Vector3::cross` (src/lib.rs:103-109). -/
def cross (a b : Vector3F) : Vector3F :=
  ⟨fsub (fmul a.y b.z) (fmul a.z b.y),
   fsub (fmul a.z b.x) (fmul a.x b.z),
   fsub (fmul a.x b.y) (fmul a.y b.x)⟩

/-- `impl PartialEq<Vector3> for Vector3` (src/lib.rs:160-169) over the
special-value model: compare the components with `f64` `!=` and return
`false` at the first mismatch. -/
def eqImplF (a b : Vector3F) : Bool :=
  if !feq a.x b.x then false
  else if !feq a.y b.y then false
  else if !feq a.z b.z then false
  else true

end Vector3F

/-! ## Helper lemmas -/

/-- Reassembling the eight big-endian bytes of a 64-bit pattern recovers
the pattern. -/
theorem bytesToU64BE_f64ToBeBytes (x : Nat) (h : x < 2 ^ 64) :
    bytesToU64BE (f64ToBeBytes x) = x := by
  simp only [bytesToU64BE, f64ToBeBytes, List.foldl]
  omega

/-- IEEE `==` on a single pattern against itself succeeds exactly when the
pattern is not a NaN. -/
theorem f64EqBits_self (b : Nat) : f64EqBits b b = !isNanBits b := by
  unfold f64EqBits
  cases h : isNanBits b <;> cases hz : isZeroBits b <;> simp [h, hz]

/-! ## Claim C4 — serialized layout -/

/-- C4: `to_be_bytes` of any vector is 24 bytes — the 8 big-endian bytes of
`x`, then of `y`, then of `z` — and concretely, the vector whose three
components carry the bit pattern `0x4010000000000000` (which decodes to the
value 4) serializes to `[64,16,0,0,0,0,0,0]` repeated three times. -/
theorem claim_C4_to_bytes_layout :
    (∀ v : Vector3B, (Vector3B.to_be_bytes v).length = 24 ∧
      Vector3B.to_be_bytes v =
        f64ToBeBytes v.x ++ f64ToBeBytes v.y ++ f64ToBeBytes v.z) ∧
    Vector3B.to_be_bytes ⟨0x4010000000000000, 0x4010000000000000,
                          0x4010000000000000⟩ =
      [64, 16, 0, 0, 0, 0, 0, 0, 64, 16, 0, 0, 0, 0, 0, 0,
       64, 16, 0, 0, 0, 0, 0, 0] ∧
    bitsVal 0x4010000000000000 = some 4 := by
  refine ⟨fun v => ⟨rfl, rfl⟩, by decide, ?_⟩
  norm_num [bitsVal]

/-! ## Claim C3 — bit-exact round trip -/

/-- C3: for every vector of bit patterns (NaN and infinity patterns
included), `from_be_bytes (to_be_bytes v)` succeeds and returns a vector
whose three components are bit-for-bit identical to those of `v`. -/
theorem claim_C3_roundtrip (v : Vector3B)
    (hx : v.x < 2 ^ 64) (hy : v.y < 2 ^ 64) (hz : v.z < 2 ^ 64) :
    Vector3B.from_be_bytes (Vector3B.to_be_bytes v) = some v := by
  cases v with
  | mk x y z =>
    show some (Vector3B.mk (bytesToU64BE (f64ToBeBytes x))
        (bytesToU64BE (f64ToBeBytes y)) (bytesToU64BE (f64ToBeBytes z))) =
      some (Vector3B.mk x y z)
    rw [bytesToU64BE_f64ToBeBytes x hx, bytesToU64BE_f64ToBeBytes y hy,
        bytesToU64BE_f64ToBeBytes z hz]

/-- Witness for C3 at a concrete vector whose `x` carries the canonical NaN
bit pattern `0x7ff8000000000000` and whose `y` carries the pattern of 4.0:
the round trip reproduces both patterns bit-for-bit. -/
theorem claim_C3_roundtrip_witness :
    ((0x7ff8000000000000 : Nat) < 2 ^ 64 ∧ (0x4010000000000000 : Nat) < 2 ^ 64 ∧
      (5 : Nat) < 2 ^ 64) ∧
    Vector3B.from_be_bytes
        (Vector3B.to_be_bytes ⟨0x7ff8000000000000, 0x4010000000000000, 5⟩) =
      some ⟨0x7ff8000000000000, 0x4010000000000000, 5⟩ :=
  ⟨⟨by decide, by decide, by decide⟩,
   claim_C3_roundtrip ⟨0x7ff8000000000000, 0x4010000000000000, 5⟩
     (by decide) (by decide) (by decide)⟩

/-! ## Claim C10 — fixed-size deserialization cannot panic -/

/-- C10: on any 24-byte input, the three internal slice-to-array conversions
(of bytes `0..8`, `8..16`, `16..24`) all succeed — their failure branches
are unreachable — and `from_be_bytes` returns a vector. -/
theorem claim_C10_from_bytes_total (bytes : List Nat)
    (h : bytes.length = 24) :
    (tryInto8 (bytes.take 8)).isSome = true ∧
    (tryInto8 ((bytes.drop 8).take 8)).isSome = true ∧
    (tryInto8 (bytes.drop 16)).isSome = true ∧
    (Vector3B.from_be_bytes bytes).isSome = true := by
  have h1 : (bytes.take 8).length = 8 := by
    simp [List.length_take, h]
  have h2 : ((bytes.drop 8).take 8).length = 8 := by
    simp [List.length_take, List.length_drop, h]
  have h3 : (bytes.drop 16).length = 8 := by
    simp [List.length_drop, h]
  refine ⟨?_, ?_, ?_, ?_⟩ <;>
    simp [Vector3B.from_be_bytes, tryInto8, h1, h2, h3]

/-- Witness for C10 at the concrete 24-byte zero buffer. -/
theorem claim_C10_from_bytes_total_witness :
    (List.replicate 24 0).length = 24 ∧
    (Vector3B.from_be_bytes (List.replicate 24 0)).isSome = true :=
  ⟨by decide, (claim_C10_from_bytes_total (List.replicate 24 0) (by decide)).2.2.2⟩

/-! ## Claim C2 — length mismatch is a typed error -/

/-- C2 (spec-modelled): whenever the input buffer is not exactly 24 bytes —
shorter or longer — the checked `from_bytes` returns the `LengthMismatch`
typed error; being a total function into `Except`, it cannot crash. -/
theorem claim_C2_length_mismatch (bytes : List Nat)
    (h : bytes.length ≠ 24) :
    from_be_bytes_checked bytes = Except.error DeserializeError.lengthMismatch := by
  simp [from_be_bytes_checked, h]

/-- Witness for C2 at concrete 23-byte and 25-byte buffers (the examples given in the spec). -/
theorem claim_C2_length_mismatch_witness :
    ((List.replicate 23 0).length ≠ 24 ∧
      from_be_bytes_checked (List.replicate 23 0) =
        Except.error DeserializeError.lengthMismatch) ∧
    ((List.replicate 25 0).length ≠ 24 ∧
      from_be_bytes_checked (List.replicate 25 0) =
        Except.error DeserializeError.lengthMismatch) :=
  ⟨⟨by decide, claim_C2_length_mismatch (List.replicate 23 0) (by decide)⟩,
   ⟨by decide, claim_C2_length_mismatch (List.replicate 25 0) (by decide)⟩⟩

/-! ## Claim C8 — exact componentwise IEEE equality -/

/-- C8: the `PartialEq` implementation holds exactly when all three pairs of
components are equal under exact IEEE-754 comparison, and any vector with a
NaN component compares unequal to itself. -/
theorem claim_C8_exact_equality :
    (∀ a b : Vector3B, Vector3B.eqImpl a b =
      (f64EqBits a.x b.x && f64EqBits a.y b.y && f64EqBits a.z b.z)) ∧
    (∀ v : Vector3B,
      (isNanBits v.x || isNanBits v.y || isNanBits v.z) = true →
        Vector3B.eqImpl v v = false) := by
  constructor
  · intro a b
    unfold Vector3B.eqImpl
    cases f64EqBits a.x b.x <;> cases f64EqBits a.y b.y <;>
      cases f64EqBits a.z b.z <;> simp
  · intro v hnan
    unfold Vector3B.eqImpl
    rw [f64EqBits_self, f64EqBits_self, f64EqBits_self]
    cases hx : isNanBits v.x <;> cases hy : isNanBits v.y <;>
      cases hz : isNanBits v.z <;> simp_all

/-- Witness for C8 at the vector whose `x` is the canonical NaN pattern:
it compares unequal to itself. -/
theorem claim_C8_exact_equality_witness :
    ((isNanBits 0x7ff8000000000000 || isNanBits 0 || isNanBits 0) = true) ∧
    Vector3B.eqImpl ⟨0x7ff8000000000000, 0, 0⟩ ⟨0x7ff8000000000000, 0, 0⟩ = false :=
  ⟨by decide, claim_C8_exact_equality.2 ⟨0x7ff8000000000000, 0, 0⟩ (by decide)⟩

/-! ## Claim C1 — the normalization defect -/

/-- C1: the code does **not** compute `normalize(v) = v / magnitude(v)`.
At the failing input `v = (0,0,8)` every intermediate IEEE-754 operation is
exact (the squared sums are the perfect squares 16 and 64, whose roots and
reciprocals are representable), and the `normalize` of the code — which sums
`x*x + y*y + z + z` instead of `x*x + y*y + z*z` — returns `(0,0,2)`,
a vector of length 2, while `v / magnitude(v)` is `(0,0,1)`. -/
theorem claim_C1_normalize_defect :
    Vector3F.normalize ⟨FNum.finite 0, FNum.finite 0, FNum.finite 8⟩ =
      ⟨FNum.finite 0, FNum.finite 0, FNum.finite 2⟩ ∧
    Vector3F.vdiv ⟨FNum.finite 0, FNum.finite 0, FNum.finite 8⟩
        (Vector3F.magnitude ⟨FNum.finite 0, FNum.finite 0, FNum.finite 8⟩) =
      ⟨FNum.finite 0, FNum.finite 0, FNum.finite 1⟩ ∧
    Vector3F.normalize ⟨FNum.finite 0, FNum.finite 0, FNum.finite 8⟩ ≠
      Vector3F.vdiv ⟨FNum.finite 0, FNum.finite 0, FNum.finite 8⟩
        (Vector3F.magnitude ⟨FNum.finite 0, FNum.finite 0, FNum.finite 8⟩) := by
  have h16 : Nat.sqrt (Int.toNat 16) = 4 := by
    rw [show Int.toNat 16 = 4 * 4 from rfl, Nat.sqrt_eq]
  have h64 : Nat.sqrt (Int.toNat 64) = 8 := by
    rw [show Int.toNat 64 = 8 * 8 from rfl, Nat.sqrt_eq]
  have hA : Vector3F.normalize ⟨FNum.finite 0, FNum.finite 0, FNum.finite 8⟩ =
      ⟨FNum.finite 0, FNum.finite 0, FNum.finite 2⟩ := by
    simp only [Vector3F.normalize, Vector3F.smulL, FNum.fmul, FNum.fadd,
      FNum.fdiv, FNum.fsqrt, FNum.ratSqrt]
    norm_num [h16]
  have hB : Vector3F.vdiv ⟨FNum.finite 0, FNum.finite 0, FNum.finite 8⟩
      (Vector3F.magnitude ⟨FNum.finite 0, FNum.finite 0, FNum.finite 8⟩) =
      ⟨FNum.finite 0, FNum.finite 0, FNum.finite 1⟩ := by
    simp only [Vector3F.vdiv, Vector3F.magnitude, Vector3F.dot, Vector3F.smulR,
      FNum.fmul, FNum.fadd, FNum.fdiv, FNum.fsqrt, FNum.ratSqrt]
    norm_num [h64]
  refine ⟨hA, hB, ?_⟩
  rw [hA, hB]
  norm_num

/-! ## Claim C9 — scalar multiplication is two-sided -/

/-- IEEE-754 multiplication in the special-value model is commutative. -/
theorem fmul_comm (a b : FNum) : FNum.fmul a b = FNum.fmul b a := by
  cases a <;> cases b <;> simp [FNum.fmul, mul_comm, Bool.xor_comm]

/-- C9: `s * v` (the `Mul<Vector3> for f64` impl) and `v * s` (the
`Mul<f64> for Vector3` impl) produce identical vectors, each component being
the product of `s` with the corresponding component of `v`. -/
theorem claim_C9_scalar_mul_two_sided (s : FNum) (v : Vector3F) :
    Vector3F.smulL s v = Vector3F.smulR v s ∧
    Vector3F.smulL s v =
      ⟨FNum.fmul s v.x, FNum.fmul s v.y, FNum.fmul s v.z⟩ := by
  constructor <;>
    simp [Vector3F.smulL, Vector3F.smulR, fmul_comm]

/-! ## Claim C5 — magnitude is nonnegative -/

/-- The IEEE square of a non-NaN value is `+inf` or a nonnegative finite
value. -/
theorem fmul_self_ok (a : FNum) (h : a.isNan = false) :
    FNum.fmul a a = FNum.inf false ∨
      ∃ q, FNum.fmul a a = FNum.finite q ∧ 0 ≤ q := by
  cases a with
  | nan => simp [FNum.isNan] at h
  | inf s => left; simp [FNum.fmul]
  | finite q => right; exact ⟨q * q, rfl, mul_self_nonneg q⟩

/-- Adding two values that are each `+inf` or nonnegative finite yields a
value of the same shape (no `inf - inf` NaN can arise). -/
theorem fadd_ok (a b : FNum)
    (ha : a = FNum.inf false ∨ ∃ q, a = FNum.finite q ∧ 0 ≤ q)
    (hb : b = FNum.inf false ∨ ∃ q, b = FNum.finite q ∧ 0 ≤ q) :
    FNum.fadd a b = FNum.inf false ∨
      ∃ q, FNum.fadd a b = FNum.finite q ∧ 0 ≤ q := by
  rcases ha with rfl | ⟨q, rfl, hq⟩ <;> rcases hb with rfl | ⟨r, rfl, hr⟩
  · left; rfl
  · left; rfl
  · left; rfl
  · right; exact ⟨q + r, rfl, add_nonneg hq hr⟩

/-- The rational square root of the model is nonnegative. -/
theorem ratSqrt_nonneg (q : ℚ) : 0 ≤ FNum.ratSqrt q := by
  unfold FNum.ratSqrt
  positivity

/-- C5 fails as stated: at the explicit vector `(NaN, 0, 0)` the magnitude
is NaN, and NaN is not `>= 0` under IEEE-754 comparison. -/
theorem claim_C5_counterexample :
    FNum.fge (Vector3F.magnitude ⟨FNum.nan, FNum.finite 0, FNum.finite 0⟩)
      (FNum.finite 0) = false := rfl

/-- C5 (amended): for every vector none of whose components is NaN —
infinite components allowed — `magnitude(v) >= 0` holds under IEEE-754
comparison. -/
theorem claim_C5_magnitude_nonneg (v : Vector3F)
    (hx : v.x.isNan = false) (hy : v.y.isNan = false) (hz : v.z.isNan = false) :
    FNum.fge (Vector3F.magnitude v) (FNum.finite 0) = true := by
  have hd := fadd_ok _ _
    (fadd_ok _ _ (fmul_self_ok v.x hx) (fmul_self_ok v.y hy))
    (fmul_self_ok v.z hz)
  unfold Vector3F.magnitude
  have hdot : Vector3F.dot v v =
      FNum.fadd (FNum.fadd (FNum.fmul v.x v.x) (FNum.fmul v.y v.y))
        (FNum.fmul v.z v.z) := rfl
  rw [hdot]
  rcases hd with h | ⟨q, h, hq⟩
  · rw [h]; rfl
  · rw [h]
    simp [FNum.fsqrt, not_lt.mpr hq, FNum.fge, ratSqrt_nonneg]

/-- Witness for the amended C5 at the concrete vector `(1, 2, 2)` (of
magnitude 3). -/
theorem claim_C5_magnitude_nonneg_witness :
    ((FNum.finite 1).isNan = false ∧ (FNum.finite 2).isNan = false) ∧
    FNum.fge
      (Vector3F.magnitude ⟨FNum.finite 1, FNum.finite 2, FNum.finite 2⟩)
      (FNum.finite 0) = true :=
  ⟨⟨rfl, rfl⟩,
   claim_C5_magnitude_nonneg ⟨FNum.finite 1, FNum.finite 2, FNum.finite 2⟩
     rfl rfl rfl⟩

/-! ## Claims C6 and C7 — projection/rejection and cross product -/

/-- A value with `isFinite` set is some finite rational. -/
theorem isFinite_exists (a : FNum) (h : a.isFinite = true) :
    ∃ q, a = FNum.finite q := by
  cases a with
  | finite q => exact ⟨q, rfl⟩
  | inf s => simp [FNum.isFinite] at h
  | nan => simp [FNum.isFinite] at h

/-- Two all-finite vectors compare `==` when the carried rationals agree
componentwise. -/
theorem eqImplF_finite (u1 u2 u3 v1 v2 v3 : ℚ)
    (h1 : u1 = v1) (h2 : u2 = v2) (h3 : u3 = v3) :
    Vector3F.eqImplF ⟨FNum.finite u1, FNum.finite u2, FNum.finite u3⟩
      ⟨FNum.finite v1, FNum.finite v2, FNum.finite v3⟩ = true := by
  subst h1 h2 h3
  simp [Vector3F.eqImplF, FNum.feq]

/-- C7 fails as stated: at the explicit vectors `a = (NaN, 0, 0)` and
`b = (0, 0, 0)` both `cross(a,b)` and `-1 * cross(b,a)` have NaN
components, so the `==` comparison of the claim is false, not true. -/
theorem claim_C7_counterexample :
    Vector3F.eqImplF
      (Vector3F.cross ⟨FNum.nan, FNum.finite 0, FNum.finite 0⟩
        ⟨FNum.finite 0, FNum.finite 0, FNum.finite 0⟩)
      (Vector3F.smulL (FNum.finite (-1))
        (Vector3F.cross ⟨FNum.finite 0, FNum.finite 0, FNum.finite 0⟩
          ⟨FNum.nan, FNum.finite 0, FNum.finite 0⟩)) = false := by
  simp only [Vector3F.cross, Vector3F.smulL, Vector3F.eqImplF,
    FNum.fsub, FNum.fneg, FNum.fadd, FNum.fmul, FNum.feq]
  norm_num

/-- C7 (amended): `cross` computes exactly the componentwise formula of the
claim, and anti-commutativity `cross(a,b) == -1 * cross(b,a)` holds for all
vectors whose components are finite (with a NaN component — or an
`inf - inf` arising from infinite components — both sides hold NaN and the
IEEE `==` of the claim is false instead). -/
theorem claim_C7_cross_anticomm (a b : Vector3F)
    (hax : a.x.isFinite = true) (hay : a.y.isFinite = true)
    (haz : a.z.isFinite = true) (hbx : b.x.isFinite = true)
    (hby : b.y.isFinite = true) (hbz : b.z.isFinite = true) :
    Vector3F.cross a b =
      ⟨FNum.fsub (FNum.fmul a.y b.z) (FNum.fmul a.z b.y),
       FNum.fsub (FNum.fmul a.z b.x) (FNum.fmul a.x b.z),
       FNum.fsub (FNum.fmul a.x b.y) (FNum.fmul a.y b.x)⟩ ∧
    Vector3F.eqImplF (Vector3F.cross a b)
      (Vector3F.smulL (FNum.finite (-1)) (Vector3F.cross b a)) = true := by
  refine ⟨rfl, ?_⟩
  cases a with | mk ax ay az =>
  cases b with | mk bx by2 bz =>
  obtain ⟨qax, rfl⟩ := isFinite_exists ax hax
  obtain ⟨qay, rfl⟩ := isFinite_exists ay hay
  obtain ⟨qaz, rfl⟩ := isFinite_exists az haz
  obtain ⟨qbx, rfl⟩ := isFinite_exists bx hbx
  obtain ⟨qby, rfl⟩ := isFinite_exists by2 hby
  obtain ⟨qbz, rfl⟩ := isFinite_exists bz hbz
  simp only [Vector3F.cross, Vector3F.smulL, FNum.fsub, FNum.fneg,
    FNum.fadd, FNum.fmul]
  exact eqImplF_finite _ _ _ _ _ _ (by ring) (by ring) (by ring)

/-- Witness for the amended C7 at the concrete cross-product
vectors of the spec, `(1,2,3)` and `(2,1,3)`. -/
theorem claim_C7_cross_anticomm_witness :
    ((FNum.finite (1 : ℚ)).isFinite = true ∧
      (FNum.finite (3 : ℚ)).isFinite = true) ∧
    Vector3F.eqImplF
      (Vector3F.cross ⟨FNum.finite 1, FNum.finite 2, FNum.finite 3⟩
        ⟨FNum.finite 2, FNum.finite 1, FNum.finite 3⟩)
      (Vector3F.smulL (FNum.finite (-1))
        (Vector3F.cross ⟨FNum.finite 2, FNum.finite 1, FNum.finite 3⟩
          ⟨FNum.finite 1, FNum.finite 2, FNum.finite 3⟩)) = true :=
  ⟨⟨rfl, rfl⟩,
   (claim_C7_cross_anticomm ⟨FNum.finite 1, FNum.finite 2, FNum.finite 3⟩
     ⟨FNum.finite 2, FNum.finite 1, FNum.finite 3⟩
     rfl rfl rfl rfl rfl rfl).2⟩

/-- C6 fails as stated: at the explicit `a = (NaN, 0, 0)` and the nonzero
`b = (1, 0, 0)`, `project(a,b) + reject(a,b)` has a NaN component and the
`==` comparison of the claim is false, not true. -/
theorem claim_C6_counterexample :
    Vector3F.eqImplF
      (Vector3F.vadd
        (Vector3F.project_on ⟨FNum.nan, FNum.finite 0, FNum.finite 0⟩
          ⟨FNum.finite 1, FNum.finite 0, FNum.finite 0⟩)
        (Vector3F.reject_from ⟨FNum.nan, FNum.finite 0, FNum.finite 0⟩
          ⟨FNum.finite 1, FNum.finite 0, FNum.finite 0⟩))
      ⟨FNum.nan, FNum.finite 0, FNum.finite 0⟩ = false := by
  simp only [Vector3F.vadd, Vector3F.project_on, Vector3F.reject_from,
    Vector3F.vsub, Vector3F.smulR, Vector3F.dot, Vector3F.eqImplF,
    FNum.fsub, FNum.fneg, FNum.fadd, FNum.fmul, FNum.fdiv, FNum.feq]
  norm_num

/-- C6 (amended): for every `a` and nonzero `b` all of whose components are
finite, `project(a,b) + reject(a,b) == a` — exactly, in the exact
finite arithmetic of the model (real IEEE-754 evaluation rounds each operation, so there
equality holds only up to rounding); with a NaN or infinite component the
computation yields NaN components and the `==` is false instead. -/
theorem claim_C6_project_reject (a b : Vector3F)
    (hax : a.x.isFinite = true) (hay : a.y.isFinite = true)
    (haz : a.z.isFinite = true) (hbx : b.x.isFinite = true)
    (hby : b.y.isFinite = true) (hbz : b.z.isFinite = true)
    (hb : b ≠ ⟨FNum.finite 0, FNum.finite 0, FNum.finite 0⟩) :
    Vector3F.eqImplF
      (Vector3F.vadd (Vector3F.project_on a b) (Vector3F.reject_from a b))
      a = true := by
  cases a with | mk ax ay az =>
  cases b with | mk bx by2 bz =>
  obtain ⟨qax, rfl⟩ := isFinite_exists ax hax
  obtain ⟨qay, rfl⟩ := isFinite_exists ay hay
  obtain ⟨qaz, rfl⟩ := isFinite_exists az haz
  obtain ⟨qbx, rfl⟩ := isFinite_exists bx hbx
  obtain ⟨qby, rfl⟩ := isFinite_exists by2 hby
  obtain ⟨qbz, rfl⟩ := isFinite_exists bz hbz
  have hne : ¬(qbx = 0 ∧ qby = 0 ∧ qbz = 0) := by
    rintro ⟨h1, h2, h3⟩
    exact hb (by rw [h1, h2, h3])
  have hs : qbx * qbx + qby * qby + qbz * qbz ≠ 0 := by
    intro h0
    have n1 := mul_self_nonneg qbx
    have n2 := mul_self_nonneg qby
    have n3 := mul_self_nonneg qbz
    exact hne ⟨mul_self_eq_zero.mp (by linarith),
               mul_self_eq_zero.mp (by linarith),
               mul_self_eq_zero.mp (by linarith)⟩
  simp only [Vector3F.vadd, Vector3F.project_on, Vector3F.reject_from,
    Vector3F.vsub, Vector3F.smulR, Vector3F.dot,
    FNum.fsub, FNum.fneg, FNum.fadd, FNum.fmul, FNum.fdiv, if_neg hs]
  exact eqImplF_finite _ _ _ _ _ _ (by ring) (by ring) (by ring)

/-- Witness for the amended C6 at the projection example of the spec,
`a = (4,4,0)`, `b = (1,2,0)`. -/
theorem claim_C6_project_reject_witness :
    ((FNum.finite (4 : ℚ)).isFinite = true ∧
      (⟨FNum.finite 1, FNum.finite 2, FNum.finite 0⟩ : Vector3F) ≠
        ⟨FNum.finite 0, FNum.finite 0, FNum.finite 0⟩) ∧
    Vector3F.eqImplF
      (Vector3F.vadd
        (Vector3F.project_on ⟨FNum.finite 4, FNum.finite 4, FNum.finite 0⟩
          ⟨FNum.finite 1, FNum.finite 2, FNum.finite 0⟩)
        (Vector3F.reject_from ⟨FNum.finite 4, FNum.finite 4, FNum.finite 0⟩
          ⟨FNum.finite 1, FNum.finite 2, FNum.finite 0⟩))
      ⟨FNum.finite 4, FNum.finite 4, FNum.finite 0⟩ = true :=
  ⟨⟨rfl, by simp [Vector3F.mk.injEq]⟩,
   claim_C6_project_reject ⟨FNum.finite 4, FNum.finite 4, FNum.finite 0⟩
     ⟨FNum.finite 1, FNum.finite 2, FNum.finite 0⟩
     rfl rfl rfl rfl rfl rfl (by simp [Vector3F.mk.injEq])⟩

end V3
